import Mathlib

/- Shallow embedding of the feature precomputation pipeline of
   ingestion_script.py (functions precompute_mlb_features and
   precompute_nfl_features).

   Modelling conventions:
   * numeric columns (pandas float64) are modelled as exact rationals;
   * a missing value (NaN / absent after a left merge) is Option.none;
   * timestamps (commence_time) are naturals in chronological order;
   * raw team-name strings are String; after the MLB cleaning step the
     team column holds either a canonical code or the scalar 0 written by
     fillna(0), modelled as the sum type String oplus Nat. -/

namespace Ingestion

/-- Row of the games / nfl_games table: identifier, raw team-name strings,
optional final scores, scheduled timestamp. -/
structure Game where
  game_id : Nat
  home_team : String
  away_team : String
  home_score : Option ℚ
  away_score : Option ℚ
  commence_time : Nat
deriving DecidableEq, Repr

/-- Row of the batter_stats table (the stat columns used by the pipeline). -/
structure BatterRow where
  game_id : Nat
  team : String
  hits : ℚ
  home_runs : ℚ
  walks : ℚ
  strikeouts : ℚ
  at_bats : ℚ
deriving DecidableEq, Repr

/-- Row of the pitcher_stats table (the stat columns used by the pipeline). -/
structure PitcherRow where
  game_id : Nat
  team : String
  earned_runs : ℚ
  innings_pitched : ℚ
deriving DecidableEq, Repr

/-- Keys of a pandas groupby over a list of rows, in order of first
appearance (the claims settled here do not depend on the display order
of the grouped output). -/
def groupKeys {α κ : Type} [DecidableEq κ] (key : α → κ) (l : List α) : List κ :=
  (l.map key).dedup

/- ### Location-split rolling engine (lines 93-101 and 182-186) -/

/-- pandas Series.shift(1): the first entry becomes missing, every later
entry takes the previous row's value; the length is preserved. -/
def shift1 (xs : List ℚ) : List (Option ℚ) :=
  (none :: xs.map some).take xs.length

/-- pandas Series.rolling(W, min_periods=1).mean(): at index i, the mean of
the defined entries among positions max(0, i+1-W)..i of the input series;
missing when no entry in that window is defined. -/
def rollingMeanMinp1 (W : Nat) (s : List (Option ℚ)) : List (Option ℚ) :=
  (List.range s.length).map fun i =>
    if (((s.take (i+1)).drop (i+1-W)).filterMap id).length = 0 then none
    else some ((((s.take (i+1)).drop (i+1-W)).filterMap id).sum /
      ((((s.take (i+1)).drop (i+1-W)).filterMap id).length : ℚ))

/-- The transform x.shift(1).rolling(W, min_periods=1).mean() applied to one
stat column of one (team, location) group. -/
def rollingShiftMean (W : Nat) (xs : List ℚ) : List (Option ℚ) :=
  rollingMeanMinp1 W (shift1 xs)

/-- Window size of the MLB rolling features (lines 93-101). -/
def mlbRollingWindow : Nat := 10

/-- Window size of the NFL rolling features (lines 182-186). -/
def nflRollingWindow : Nat := 4

/-- Spec-side definition (wording of section 4.4 of the spec): the trailing
mean at index i over the previous up to W observations, i.e. the
observations at indices max(0, i-W)..i-1; undefined at i = 0. -/
def specTrailingMean (W : Nat) (xs : List ℚ) (i : Nat) : Option ℚ :=
  if i = 0 then none
  else some (((xs.take i).drop (i - W)).sum / ((((xs.take i).drop (i - W)).length : ℚ)))

/- ### Opponent adjustment engine (lines 74-77 and 171-172) -/

/-- Cohort normalizer of the MLB adjustment (lines 74-77). -/
def mlbCohort : ℚ := 15.5

/-- Cohort normalizer of the NFL adjustment (lines 171-172). -/
def nflCohort : ℚ := 16.5

/-- The multiplier 1 + (C - rank) / C applied to a raw stat. -/
def adjMultiplier (C rank : ℚ) : ℚ := 1 + (C - rank) / C

/-- raw * (1 + (C - rank) / C), with NaN propagation: a missing opponent
rank makes the adjusted value missing. -/
def adjustStat (C raw : ℚ) (rank : Option ℚ) : Option ℚ :=
  rank.map fun r => raw * adjMultiplier C r

/- ### NaN propagation through the adjustment stage (C8) -/

/-- The four MLB adjusted columns of one batter_stats record (lines 74-77):
all four are scaled by the same opponent pitching rank. -/
structure MlbAdjusted where
  adj_hits : Option ℚ
  adj_home_runs : Option ℚ
  adj_walks : Option ℚ
  adj_strikeouts : Option ℚ
deriving DecidableEq, Repr

/-- Adjustment of one batter record given the merged-in opponent pitching
rank column (lines 74-77). -/
def mlbAdjustRecord (rank : Option ℚ) (b : BatterRow) : MlbAdjusted :=
  ⟨adjustStat mlbCohort b.hits rank, adjustStat mlbCohort b.home_runs rank,
   adjustStat mlbCohort b.walks rank, adjustStat mlbCohort b.strikeouts rank⟩

/-- Left-merge of a record's opponent column with the rank table (lines
72-73): the rank is missing when the opponent column is itself missing or
when the opponent has no row in the table. -/
def lookupOpponentRank (rankTable : List (String × ℚ)) (opponent : Option String) :
    Option ℚ :=
  opponent.bind fun o => rankTable.lookup o

/-- The two NFL adjusted columns of one team-game record (lines 171-172). -/
structure NflAdjusted where
  adj_points_scored : Option ℚ
  adj_points_allowed : Option ℚ
deriving DecidableEq, Repr

/-- Left-merge of an NFL record's opponent with the combined rank table
(lines 166-168): one row per team holding (offensive_rank, defensive_rank). -/
def nflOpponentRanks (tbl : List (String × ℚ × ℚ)) (opponent : String) :
    Option ℚ × Option ℚ :=
  ((tbl.lookup opponent).map Prod.fst, (tbl.lookup opponent).map Prod.snd)

/-- Adjustment of one NFL team-game record (lines 171-172): points scored
are scaled by the opponent's defensive rank, points allowed by the
opponent's offensive rank. -/
def nflAdjustRecord (offensive_rank defensive_rank : Option ℚ)
    (points_scored points_allowed : ℚ) : NflAdjusted :=
  ⟨adjustStat nflCohort points_scored defensive_rank,
   adjustStat nflCohort points_allowed offensive_rank⟩

/- ### Ranking engine (lines 59-65 and 162-163) -/

/-- Guard added to every MLB ratio denominator (the 1e-6 of lines 60, 64). -/
def eps : ℚ := 1 / 1000000

/-- Does row j rank strictly ahead of row i in pandas
Series.rank(ascending, method first)?  Ascending direction: a strictly
smaller value, or an equal value at an earlier position.  Descending: a
strictly larger value, or an equal value at an earlier position. -/
def beats (asc : Bool) (v : List ℚ) (j i : Nat) : Prop :=
  (if asc then v.getD j 0 < v.getD i 0 else v.getD i 0 < v.getD j 0)
  ∨ (v.getD j 0 = v.getD i 0 ∧ j < i)

instance (asc : Bool) (v : List ℚ) (j i : Nat) : Decidable (beats asc v j i) := by
  unfold beats
  infer_instance

/-- Rank of entry i under pandas Series.rank(ascending, method first): one
plus the number of entries ranking strictly ahead of it. -/
def rankOf (asc : Bool) (v : List ℚ) (i : Nat) : Nat :=
  1 + ((Finset.range v.length).filter (fun j => beats asc v j i)).card

/-- The whole rank column, aligned with the metric column v. -/
def rankFirst (asc : Bool) (v : List ℚ) : List Nat :=
  (List.range v.length).map (rankOf asc v)

/-- The set of rows ranking strictly ahead of row i. -/
def beatSet (asc : Bool) (v : List ℚ) (i : Nat) : Finset Nat :=
  (Finset.range v.length).filter (fun j => beats asc v j i)

/- ### Season aggregates and the four pipeline rankings -/

/-- groupby team, agg sum over (earned_runs, innings_pitched) projections of
pitcher_stats (line 59): one row per team. -/
def teamPitchingAgg {κ : Type} [DecidableEq κ] (rows : List (κ × ℚ × ℚ)) :
    List (κ × ℚ × ℚ) :=
  (groupKeys Prod.fst rows).map fun t =>
    (t, ((rows.filter (fun r => r.1 = t)).map (fun r => r.2.1)).sum,
        ((rows.filter (fun r => r.1 = t)).map (fun r => r.2.2)).sum)

/-- groupby team, agg sum over (hits, home_runs, at_bats) projections of
batter_stats (line 63): one row per team. -/
def teamHittingAgg {κ : Type} [DecidableEq κ] (rows : List (κ × ℚ × ℚ × ℚ)) :
    List (κ × ℚ × ℚ × ℚ) :=
  (groupKeys Prod.fst rows).map fun t =>
    (t, ((rows.filter (fun r => r.1 = t)).map (fun r => r.2.1)).sum,
        ((rows.filter (fun r => r.1 = t)).map (fun r => r.2.2.1)).sum,
        ((rows.filter (fun r => r.1 = t)).map (fun r => r.2.2.2)).sum)

/-- Season ERA metric (line 60): total_er * 9 / (total_ip + 1e-6). -/
def season_era (total_er total_ip : ℚ) : ℚ := total_er * 9 / (total_ip + eps)

/-- Production score metric (line 64):
(total_hits + 2 * total_homers) / (total_at_bats + 1e-6). -/
def production_score (total_hits total_homers total_at_bats : ℚ) : ℚ :=
  (total_hits + 2 * total_homers) / (total_at_bats + eps)

/-- groupby team, mean of one projected column (lines 162-163): the group
sum divided by the group row count. -/
def teamMean {κ : Type} [DecidableEq κ] (rows : List (κ × ℚ)) : List (κ × ℚ) :=
  (groupKeys Prod.fst rows).map fun t =>
    (t, ((rows.filter (fun r => r.1 = t)).map Prod.snd).sum /
      (((rows.filter (fun r => r.1 = t)).length : ℚ)))

/-- MLB pitching rank (line 61): season ERA, ascending, method first. -/
def pitching_rank {κ : Type} [DecidableEq κ] (rows : List (κ × ℚ × ℚ)) : List Nat :=
  rankFirst true ((teamPitchingAgg rows).map fun p => season_era p.2.1 p.2.2)

/-- MLB hitting rank (line 65): production score, descending, method first. -/
def hitting_rank {κ : Type} [DecidableEq κ] (rows : List (κ × ℚ × ℚ × ℚ)) : List Nat :=
  rankFirst false ((teamHittingAgg rows).map fun h => production_score h.2.1 h.2.2.1 h.2.2.2)

/-- NFL offensive rank (line 162): mean points scored, descending, method
first. -/
def offensive_rank {κ : Type} [DecidableEq κ] (rows : List (κ × ℚ)) : List Nat :=
  rankFirst false ((teamMean rows).map Prod.snd)

/-- NFL defensive rank (line 163): mean points allowed, ascending, method
first. -/
def defensive_rank {κ : Type} [DecidableEq κ] (rows : List (κ × ℚ)) : List Nat :=
  rankFirst true ((teamMean rows).map Prod.snd)

/- ### Snapshot assembler (lines 104-107 and 190-193) -/

/-- First row matching a key, as pandas sees a unique-key table lookup. -/
def lookupFirst {κ α : Type} [DecidableEq κ] (rows : List (κ × α)) (t : κ) : Option α :=
  (rows.find? (fun r => r.1 = t)).map Prod.snd

/-- One team's column inside a location-split table, in table (that is,
timestamp) order. -/
def teamSeries {κ : Type} [DecidableEq κ] (rows : List (κ × Option ℚ)) (t : κ) :
    List (Option ℚ) :=
  (rows.filter (fun r => r.1 = t)).map Prod.snd

/-- groupby(team).last() over one column (lines 104-105 / 190-191): for each
team the last non-missing entry of its series, pandas GroupBy.last skipping
missing values. -/
def latestPerTeam {κ : Type} [DecidableEq κ] (rows : List (κ × Option ℚ)) :
    List (κ × Option ℚ) :=
  (groupKeys Prod.fst rows).map fun t => (t, ((teamSeries rows t).filterMap id).getLast?)

/-- Full outer merge on the team key (lines 107 / 193) of the two
one-column latest tables: one output row per team code occurring on either
side, the side values looked up and missing when the team is absent from
that side. -/
def snapshotJoin {κ : Type} [DecidableEq κ] (h a : List (κ × Option ℚ)) :
    List (κ × (Option ℚ × Option ℚ)) :=
  ((h.map Prod.fst) ++ (a.map Prod.fst)).dedup.map fun t =>
    (t, ((lookupFirst (latestPerTeam h) t).join, (lookupFirst (latestPerTeam a) t).join))

/-- Home-side example table for the C4 witness: team A, missing rolling
value first. -/
def c4Home : List (String × Option ℚ) := [("A", none), ("A", some 4)]

/-- Away-side example table for the C4 witness: team B only. -/
def c4Away : List (String × Option ℚ) := [("B", none)]

/- ### Data cleaning and the MLB per-game aggregation (lines 13-33, 49-91) -/

/-- Python str.strip / pandas Series.str.strip: leading and trailing
whitespace removed. -/
def pyStrip (s : String) : String :=
  String.mk (((s.data.dropWhile Char.isWhitespace).reverse.dropWhile
    Char.isWhitespace).reverse)

/-- The MLB team-name dictionary of lines 13-33. -/
def MLB_TEAM_NAME_MAP : List (String × String) := [
  ("ARI", "ARI"), ("ATL", "ATL"), ("BAL", "BAL"), ("BOS", "BOS"), ("CHC", "CHC"),
  ("CHW", "CHW"), ("CIN", "CIN"), ("CLE", "CLE"),
  ("COL", "COL"), ("DET", "DET"), ("HOU", "HOU"), ("KCR", "KC"), ("KC", "KC"),
  ("LAA", "LAA"), ("LAD", "LAD"), ("MIA", "MIA"),
  ("MIL", "MIL"), ("MIN", "MIN"), ("NYM", "NYM"), ("NYY", "NYY"), ("OAK", "OAK"),
  ("PHI", "PHI"), ("PIT", "PIT"), ("SDP", "SD"),
  ("SD", "SD"), ("SFG", "SF"), ("SF", "SF"), ("SEA", "SEA"), ("STL", "STL"),
  ("TBR", "TB"), ("TB", "TB"), ("TEX", "TEX"),
  ("TOR", "TOR"), ("WSN", "WSH"), ("WAS", "WSH"),
  ("Arizona Diamondbacks", "ARI"), ("Atlanta Braves", "ATL"),
  ("Baltimore Orioles", "BAL"), ("Boston Red Sox", "BOS"),
  ("Chicago Cubs", "CHC"), ("Chicago White Sox", "CHW"),
  ("Cincinnati Reds", "CIN"), ("Cleveland Guardians", "CLE"),
  ("Colorado Rockies", "COL"), ("Detroit Tigers", "DET"),
  ("Houston Astros", "HOU"), ("Kansas City Royals", "KC"),
  ("Los Angeles Angels", "LAA"), ("Los Angeles Dodgers", "LAD"),
  ("Miami Marlins", "MIA"), ("Milwaukee Brewers", "MIL"),
  ("Minnesota Twins", "MIN"), ("New York Mets", "NYM"),
  ("New York Yankees", "NYY"), ("Oakland Athletics", "OAK"),
  ("Philadelphia Phillies", "PHI"), ("Pittsburgh Pirates", "PIT"),
  ("San Diego Padres", "SD"), ("San Francisco Giants", "SF"),
  ("Seattle Mariners", "SEA"), ("St. Louis Cardinals", "STL"),
  ("Tampa Bay Rays", "TB"), ("Texas Rangers", "TEX"),
  ("Toronto Blue Jays", "TOR"), ("Washington Nationals", "WSH"),
  ("Diamondbacks", "ARI"), ("D-backs", "ARI"), ("Braves", "ATL"),
  ("Orioles", "BAL"), ("Red Sox", "BOS"), ("Cubs", "CHC"),
  ("White Sox", "CHW"), ("Reds", "CIN"), ("Guardians", "CLE"), ("Indians", "CLE"),
  ("Rockies", "COL"), ("Angels", "LAA"),
  ("Dodgers", "LAD"), ("Marlins", "MIA"), ("Brewers", "MIL"), ("Twins", "MIN"),
  ("Mets", "NYM"), ("Yankees", "NYY"),
  ("Athletics", "OAK"), ("Phillies", "PHI"), ("Pirates", "PIT"), ("Padres", "SD"),
  ("Giants", "SF"), ("Mariners", "SEA"),
  ("Cardinals", "STL"), ("Rays", "TB"), ("Rangers", "TEX"), ("Blue Jays", "TOR"),
  ("Nationals", "WSH"), ("ARZ", "ARI"),
  ("AZ", "ARI"), ("CWS", "CHW"), ("NY Mets", "NYM"), ("WSH Nationals", "WSH"),
  ("METS", "NYM"), ("YANKEES", "NYY"), ("ATH", "OAK")]

/-- Series.str.strip().map(dict) of lines 49-52: strip, then exact-key
lookup; a name that is not a key becomes missing (the NaN of Series.map). -/
def mapTeamName (m : List (String × String)) (s : String) : Option String :=
  lookupFirst m (pyStrip s)

/-- Value domain of the stats tables' team column after line 53/54: the
blanket fillna(0) turns the NaN of every unresolved name into the scalar 0,
so the column holds either a canonical code or the number 0. -/
abbrev TeamKey : Type := String ⊕ Nat

/-- Lines 51-54 on a batter_stats or pitcher_stats team name: strip + map,
then fillna(0) over the whole frame, which also fills the team column. -/
def cleanMlbStatsTeam (raw : String) : TeamKey :=
  match mapTeamName MLB_TEAM_NAME_MAP raw with
  | some code => Sum.inl code
  | none => Sum.inr 0

/-- Lines 49-50 on a games-table name: strip + map, no fillna, so an
unresolved name stays missing. -/
def cleanGameTeam (raw : String) : Option String := mapTeamName MLB_TEAM_NAME_MAP raw

/-- A games row after the cleaning of lines 49-56 (scores are not read by
the MLB pipeline and are not carried along). -/
structure CGame where
  game_id : Nat
  home_team : Option String
  away_team : Option String
  commence_time : Nat
deriving DecidableEq, Repr

def mlbCleanGame (g : Game) : CGame :=
  ⟨g.game_id, cleanGameTeam g.home_team, cleanGameTeam g.away_team, g.commence_time⟩

/-- pandas sort_values over a timestamp column, modelled as a stable sort
(rows with equal timestamps keep their input order). -/
def sortByTime {α : Type} (time : α → Nat) (l : List α) : List α :=
  List.insertionSort (fun x y => time x ≤ time y) l

/-- Lines 49-56: clean both name columns and sort by commence_time. -/
def mlbCleanGames (games : List Game) : List CGame :=
  sortByTime CGame.commence_time (games.map mlbCleanGame)

/-- Does a stats-table team key match an opponent-map name column value
(pandas merge equality: the numeric 0 never equals a string, missing never
equals anything)? -/
def matchesTeam (k : TeamKey) (o : Option String) : Bool :=
  match k, o with
  | Sum.inl s, some t => s = t
  | _, _ => false

/-- The opponent_map left-merge of lines 68-72: both orientations of every
game, first match on (game_id, team) wins; the opponent is missing when no
orientation matches or the matched row's other name is itself missing. -/
def mlbOpponent (cg : List CGame) (gid : Nat) (k : TeamKey) : Option String :=
  (((cg.map fun g => (g.game_id, g.home_team, g.away_team))
    ++ (cg.map fun g => (g.game_id, g.away_team, g.home_team))).find?
      (fun e => e.1 == gid && matchesTeam k e.2.1)).bind fun e => e.2.2

/-- pitcher_stats after cleaning, projected to the ranking columns. -/
def mlbPitcherKeyed (prows : List PitcherRow) : List (TeamKey × ℚ × ℚ) :=
  prows.map fun r => (cleanMlbStatsTeam r.team, r.earned_runs, r.innings_pitched)

/-- team_pitching_agg with its rank column (lines 59-61), as an association
table from team key to pitching rank. -/
def mlbPitchingRankTable (prows : List PitcherRow) : List (TeamKey × ℚ) :=
  ((teamPitchingAgg (mlbPitcherKeyed prows)).zip
    (rankFirst true ((teamPitchingAgg (mlbPitcherKeyed prows)).map
      fun p => season_era p.2.1 p.2.2))).map fun e => (e.1.1, (e.2 : ℚ))

/-- Line 73: left-merge of the record's opponent name with the pitching
rank table. -/
def mlbOpponentRank (prows : List PitcherRow) (opp : Option String) : Option ℚ :=
  opp.bind fun s => lookupFirst (mlbPitchingRankTable prows) (Sum.inl s)

/-- adj_hits of one batter row (line 74) in pipeline context. -/
def mlbAdjHits (cg : List CGame) (prows : List PitcherRow) (r : BatterRow) : Option ℚ :=
  adjustStat mlbCohort r.hits
    (mlbOpponentRank prows (mlbOpponent cg r.game_id (cleanMlbStatsTeam r.team)))

/-- One row of batter_agg (lines 80-89): the groupby keys (game_id, team,
home_team, away_team), the merged-back timestamp, and the summed adjusted
hits column (the other three adjusted columns behave identically). -/
structure MlbAggRow where
  game_id : Nat
  team : TeamKey
  home_team : String
  away_team : String
  commence_time : Nat
  total_adj_hits : ℚ
deriving DecidableEq, Repr

/-- The line-81 groupby key of one batter row: defined only when the row's
game exists and both of its cleaned names are present (a pandas groupby
drops rows whose group keys contain a missing value). -/
def mlbAggKey (cg : List CGame) (r : BatterRow) :
    Option (Nat × TeamKey × String × String × Nat) :=
  (cg.find? (fun g => g.game_id == r.game_id)).bind fun g =>
    g.home_team.bind fun h => g.away_team.map fun a =>
      (r.game_id, cleanMlbStatsTeam r.team, h, a, g.commence_time)

/-- batter_agg (lines 80-89): one row per groupby key, summing the adjusted
hits contributed by the key's rows (pandas sum skips missing values and
sums an all-missing group to 0). -/
def mlbBatterAgg (games : List Game) (prows : List PitcherRow)
    (brows : List BatterRow) : List MlbAggRow :=
  (groupKeys Prod.fst (brows.filterMap fun r =>
      (mlbAggKey (mlbCleanGames games) r).map fun k =>
        (k, mlbAdjHits (mlbCleanGames games) prows r))).map fun k =>
    ⟨k.1, k.2.1, k.2.2.1, k.2.2.2.1, k.2.2.2.2,
     ((((brows.filterMap fun r =>
          (mlbAggKey (mlbCleanGames games) r).map fun k2 =>
            (k2, mlbAdjHits (mlbCleanGames games) prows r)).filter
        (fun e => e.1 = k)).map Prod.snd).filterMap id).sum⟩

/-- Line 89: the location tag is Home exactly when the row's team key
equals the game's home team code. -/
def mlbIsHome (r : MlbAggRow) : Bool := r.team = Sum.inl r.home_team

/-- home_batter_agg (line 90). -/
def mlbHomeAgg (games : List Game) (prows : List PitcherRow)
    (brows : List BatterRow) : List MlbAggRow :=
  (mlbBatterAgg games prows brows).filter mlbIsHome

/-- away_batter_agg (line 91). -/
def mlbAwayAgg (games : List Game) (prows : List PitcherRow)
    (brows : List BatterRow) : List MlbAggRow :=
  (mlbBatterAgg games prows brows).filter (fun r => !(mlbIsHome r))

/- ### NFL cleaning and team_game_stats (lines 129-180) -/

/-- The NFL abbreviation table of lines 140-152. -/
def nfl_team_name_map : List (String × String) := [
  ("ARI", "Arizona Cardinals"), ("ATL", "Atlanta Falcons"), ("BAL", "Baltimore Ravens"),
  ("BUF", "Buffalo Bills"), ("CAR", "Carolina Panthers"), ("CHI", "Chicago Bears"),
  ("CIN", "Cincinnati Bengals"), ("CLE", "Cleveland Browns"), ("DAL", "Dallas Cowboys"),
  ("DEN", "Denver Broncos"), ("DET", "Detroit Lions"), ("GB", "Green Bay Packers"),
  ("HOU", "Houston Texans"), ("IND", "Indianapolis Colts"), ("JAX", "Jacksonville Jaguars"),
  ("KC", "Kansas City Chiefs"), ("LV", "Las Vegas Raiders"), ("LAC", "Los Angeles Chargers"),
  ("LA", "Los Angeles Rams"), ("MIA", "Miami Dolphins"), ("MIN", "Minnesota Vikings"),
  ("NE", "New England Patriots"), ("NO", "New Orleans Saints"), ("NYG", "New York Giants"),
  ("NYJ", "New York Jets"), ("OAK", "Las Vegas Raiders"), ("PHI", "Philadelphia Eagles"),
  ("PIT", "Pittsburgh Steelers"), ("SF", "San Francisco 49ers"), ("SEA", "Seattle Seahawks"),
  ("TB", "Tampa Bay Buccaneers"), ("TEN", "Tennessee Titans"), ("WAS", "Washington Commanders")]

/-- Lines 153-154: strip + map, then fillna with the original column, so an
unmapped name keeps its original (unstripped) value. -/
def nflResolveName (s : String) : String :=
  (mapTeamName nfl_team_name_map s).getD s

/-- Line 134: dropna over both score columns. -/
def nflDropIncomplete (games : List Game) : List Game :=
  games.filter fun g => g.home_score.isSome && g.away_score.isSome

/-- Lines 134-154: drop incomplete games, sort by commence_time, and
standardize both name columns. -/
def nflCleanGames (games : List Game) : List Game :=
  (sortByTime Game.commence_time (nflDropIncomplete games)).map fun g =>
    { g with home_team := nflResolveName g.home_team,
             away_team := nflResolveName g.away_team }

/-- One row of team_game_stats (lines 156-158).  Scores are total rationals
here because the dropna of line 134 runs first; this is proved as part of
the C5 theorem. -/
structure NflTG where
  game_id : Nat
  commence_time : Nat
  team : String
  opponent : String
  points_scored : ℚ
  points_allowed : ℚ
deriving DecidableEq, Repr

def nflHomeSide (g : Game) : NflTG :=
  ⟨g.game_id, g.commence_time, g.home_team, g.away_team,
   g.home_score.getD 0, g.away_score.getD 0⟩

def nflAwaySide (g : Game) : NflTG :=
  ⟨g.game_id, g.commence_time, g.away_team, g.home_team,
   g.away_score.getD 0, g.home_score.getD 0⟩

/-- team_game_stats (lines 156-158): both orientations of every cleaned
game, sorted by timestamp. -/
def nflTeamGameStats (games : List Game) : List NflTG :=
  sortByTime NflTG.commence_time
    ((nflCleanGames games).map nflHomeSide ++ (nflCleanGames games).map nflAwaySide)

/-- Line 177: is_home_game, by looking the row's game up in the cleaned
games table and comparing the row's team with its home team code. -/
def nflIsHome (c : List Game) (r : NflTG) : Bool :=
  match c.find? (fun g => g.game_id == r.game_id) with
  | some g => r.team == g.home_team
  | none => false

/-- home_games_stats (line 179). -/
def nflHomeStats (games : List Game) : List NflTG :=
  (nflTeamGameStats games).filter (nflIsHome (nflCleanGames games))

/-- away_games_stats (line 180). -/
def nflAwayStats (games : List Game) : List NflTG :=
  (nflTeamGameStats games).filter (fun r => !(nflIsHome (nflCleanGames games) r))

/- ### Score completeness (C5) and unresolved team names (C6) -/

/-- Example MLB game with both final scores missing (an incomplete game). -/
def c5Game : Game := ⟨1, "Atlanta Braves", "New York Mets", none, none, 3⟩

/-- Batter row of the incomplete game, with a resolvable team name. -/
def c5Batter : BatterRow := ⟨1, "Braves", 3, 1, 2, 0, 4⟩

/-- Example MLB game with resolvable names for the C6 exhibit. -/
def c6Game : Game := ⟨1, "Atlanta Braves", "New York Mets", some 5, some 2, 3⟩

/-- A batter row with an unresolvable team name. -/
def c6Batter1 : BatterRow := ⟨1, "Gotham Knights", 3, 0, 0, 0, 4⟩

/-- A second batter row with a different unresolvable team name. -/
def c6Batter2 : BatterRow := ⟨1, "Metropolis Meteors", 4, 0, 0, 0, 4⟩

/- ### End-to-end snapshot determinism (C9) -/

/-- The per-team rolling column of one location-split table (lines 93-101
for one stat column): for each team, the shift-then-roll transform of its
series in table order. -/
def rollPerTeam (W : Nat) (rows : List MlbAggRow) : List (TeamKey × Option ℚ) :=
  (groupKeys MlbAggRow.team rows).flatMap fun t =>
    (rollingShiftMean W ((rows.filter (fun r => r.team = t)).map
      MlbAggRow.total_adj_hits)).map fun v => (t, v)

/-- Lines 87-107 for one adjusted stat column: sort the aggregate rows by
timestamp, split them by the line-89 location tag, compute each side's
per-team rolling column, and outer-merge each team's last defined entries. -/
def mlbAssembleLatest (rows : List MlbAggRow) : List (TeamKey × (Option ℚ × Option ℚ)) :=
  snapshotJoin
    (rollPerTeam mlbRollingWindow
      ((sortByTime MlbAggRow.commence_time rows).filter mlbIsHome))
    (rollPerTeam mlbRollingWindow
      ((sortByTime MlbAggRow.commence_time rows).filter (fun r => !(mlbIsHome r))))

/-- First aggregate row of the C9 counterexample (timestamp 5). -/
def c9RowA : MlbAggRow := ⟨1, Sum.inl "ATL", "ATL", "NYM", 5, 1⟩

/-- Second aggregate row of the C9 counterexample (same timestamp 5). -/
def c9RowB : MlbAggRow := ⟨2, Sum.inl "ATL", "ATL", "BOS", 5, 2⟩

/- ### Theorems -/

lemma shift1_length (xs : List ℚ) : (shift1 xs).length = xs.length := by
  simp [shift1]

lemma filterMap_id_map_some (l : List ℚ) : (l.map some).filterMap id = l := by
  induction l with
  | nil => rfl
  | cons a t ih => simp [ih]

/-- The window the code's shift-then-roll transform averages at index i is
exactly the slice of the original series at indices max(0, i-W)..i-1. -/
lemma rolling_window_eq (W : Nat) (xs : List ℚ) (i : Nat) (hi : i < xs.length) :
    (((shift1 xs).take (i+1)).drop (i+1-W)).filterMap id = (xs.take i).drop (i - W) := by
  have htake : (shift1 xs).take (i+1) = none :: (xs.take i).map some := by
    have h1 : (shift1 xs).take (i+1) = (none :: xs.map some).take (min (i+1) xs.length) := by
      simp [shift1, List.take_take]
    have hmin : min (i+1) xs.length = i + 1 := Nat.min_eq_left hi
    rw [h1, hmin, List.take_succ_cons, List.map_take]
  rw [htake]
  rcases le_or_lt (i+1) W with hle | hlt
  · have h0 : i + 1 - W = 0 := Nat.sub_eq_zero_of_le hle
    have h0' : i - W = 0 := Nat.sub_eq_zero_of_le (Nat.le_of_succ_le hle)
    rw [h0, h0', List.drop_zero, List.drop_zero]
    have hcons : (none :: (xs.take i).map some).filterMap id =
        ((xs.take i).map some).filterMap id := by
      rfl
    rw [hcons, filterMap_id_map_some]
  · have hWi : W ≤ i := Nat.lt_succ_iff.mp hlt
    have hsub : i + 1 - W = (i - W) + 1 := by omega
    rw [hsub, List.drop_succ_cons, ← List.map_drop, filterMap_id_map_some]

lemma rolling_window_length (W : Nat) (xs : List ℚ) (i : Nat) (hi : i ≤ xs.length) :
    ((xs.take i).drop (i - W)).length = min i W := by
  simp [List.length_drop, List.length_take]
  omega

/-- Pointwise description of the shift-then-roll transform: at index 0 the
value is missing; at a later index i it is the mean of the slice of the
original series at indices max(0, i-W)..i-1. -/
lemma rollingShiftMean_getD (W : Nat) (hW : 1 ≤ W) (xs : List ℚ) (i : Nat)
    (hi : i < xs.length) :
    (rollingShiftMean W xs).getD i none = specTrailingMean W xs i := by
  have hlen : (shift1 xs).length = xs.length := shift1_length xs
  unfold rollingShiftMean rollingMeanMinp1
  rw [hlen]
  rw [List.getD_eq_getElem?_getD, List.getElem?_map, List.getElem?_range hi]
  simp only [Option.map_some', Option.getD_some]
  rw [rolling_window_eq W xs i hi]
  have hwl : ((xs.take i).drop (i - W)).length = min i W :=
    rolling_window_length W xs i (Nat.le_of_lt hi)
  by_cases h0 : i = 0
  · subst h0
    have hz : ((List.take 0 xs).drop (0 - W)).length = 0 := by simp
    rw [if_pos hz]
    simp [specTrailingMean]
  · have hpos : 0 < min i W := by
      have : 1 ≤ i := Nat.one_le_iff_ne_zero.mpr h0
      omega
    have hne : ((xs.take i).drop (i - W)).length ≠ 0 := by
      rw [hwl]; omega
    rw [if_neg hne]
    simp only [specTrailingMean, if_neg h0]

/-- C1: with the (team, location) rows ordered ascending by game timestamp,
the rolling feature at index i (0-indexed) equals the arithmetic mean of
the adjusted-stat values at indices max(0, i-W)..i-1: it is missing at
i = 0, the mean of the i prior observations for 1 <= i < W, and the mean of
exactly the trailing W prior observations for i >= W (the window length is
min i W and the window never includes the current observation); with
window 10 for the MLB stats and window 4 for the NFL stats, applied to one
stat column at a time. -/
theorem rolling_feature_is_trailing_mean (W : Nat) (hW : 1 ≤ W) (xs : List ℚ)
    (i : Nat) (hi : i < xs.length) :
    (rollingShiftMean W xs).getD i none = specTrailingMean W xs i
    ∧ specTrailingMean W xs 0 = none
    ∧ ((xs.take i).drop (i - W)).length = min i W
    ∧ (rollingShiftMean mlbRollingWindow xs).getD i none = specTrailingMean 10 xs i
    ∧ (rollingShiftMean nflRollingWindow xs).getD i none = specTrailingMean 4 xs i := by
  refine ⟨rollingShiftMean_getD W hW xs i hi, rfl,
    rolling_window_length W xs i (Nat.le_of_lt hi),
    rollingShiftMean_getD mlbRollingWindow (by norm_num [mlbRollingWindow]) xs i hi,
    rollingShiftMean_getD nflRollingWindow (by norm_num [nflRollingWindow]) xs i hi⟩

/-- Witness for C1 at the spec's own end-to-end example: series [4, 6, 2]
with window 2. -/
theorem rolling_feature_is_trailing_mean_witness :
    (1 ≤ 2 ∧ 2 < ([(4 : ℚ), 6, 2]).length)
    ∧ (rollingShiftMean 2 [(4 : ℚ), 6, 2]).getD 2 none = specTrailingMean 2 [(4 : ℚ), 6, 2] 2
    ∧ rollingShiftMean 2 [(4 : ℚ), 6, 2] = [none, some 4, some 5] :=
  ⟨⟨by norm_num, by norm_num⟩,
   (rolling_feature_is_trailing_mean 2 (by norm_num) [4, 6, 2] 2 (by norm_num)).1,
   by
    norm_num [rollingShiftMean, rollingMeanMinp1, shift1, List.range_succ,
      List.filterMap_cons, id_eq]
    refine ⟨fun h => ?_, fun h _ => ?_⟩ <;> exact absurd h (by simp)⟩

/-- C2: for every record with a defined opponent rank the adjusted stat
equals raw * (1 + (C - opponent_rank) / C), with C = 15.5 for the MLB
pipeline and C = 16.5 for the NFL pipeline; when the rank equals C the
multiplier is exactly 1. -/
theorem adjusted_stat_formula (raw r : ℚ) :
    adjustStat mlbCohort raw (some r) = some (raw * (1 + (15.5 - r) / 15.5))
    ∧ adjustStat nflCohort raw (some r) = some (raw * (1 + (16.5 - r) / 16.5))
    ∧ adjMultiplier mlbCohort mlbCohort = 1
    ∧ adjMultiplier nflCohort nflCohort = 1 := by
  refine ⟨rfl, rfl, ?_, ?_⟩ <;> norm_num [adjMultiplier, mlbCohort, nflCohort]

lemma adjMultiplier_pos_lt_two (C r : ℚ) (hC : 0 < C) (h1 : 1 ≤ r) (hN : r < 2 * C) :
    0 < adjMultiplier C r ∧ adjMultiplier C r < 2 := by
  unfold adjMultiplier
  constructor
  · have h : -1 < (C - r) / C := by
      rw [lt_div_iff₀ hC]; linarith
    linarith
  · have h : (C - r) / C < 1 := by
      rw [div_lt_one hC]; linarith
    linarith

lemma mul_mult_bounds (m raw : ℚ) (h0 : 0 < m) (h2 : m < 2) :
    (0 ≤ raw → 0 ≤ raw * m ∧ raw * m ≤ 2 * raw)
    ∧ (0 < raw → 0 < raw * m ∧ raw * m < 2 * raw)
    ∧ (raw < 0 → raw * m < 0) := by
  refine ⟨fun h => ⟨mul_nonneg h h0.le, ?_⟩,
    fun h => ⟨mul_pos h h0, ?_⟩, fun h => mul_neg_of_neg_of_pos h h0⟩
  · nlinarith
  · nlinarith

/-- C10 counterexample: the claim asserts every defined adjusted stat is
strictly less than twice the raw stat whenever the raw stat is
nonnegative; at raw = 0 (nonnegative) with opponent rank 1 the adjusted
stat is 0, which is not strictly less than 2 * 0. -/
theorem adj_strict_bound_fails_at_zero_raw :
    adjustStat mlbCohort 0 (some 1) = some 0
    ∧ (0 : ℚ) ≤ 0
    ∧ ¬ ((0 : ℚ) < 2 * 0) := by
  refine ⟨?_, le_refl 0, by norm_num⟩
  simp [adjustStat]

/-- C10 (amended): for every rank r with 1 ≤ r ≤ N and cohort normalizer
C = N + 0.5 (15.5 for the 30-team MLB pipeline, 16.5 for the 32-team NFL
pipeline) the multiplier 1 + (C - r)/C lies strictly between 0 and 2;
hence a defined adjusted stat is nonnegative and at most twice the raw
stat when the raw stat is nonnegative, strictly less than twice the raw
stat when the raw stat is positive, and the sign of the raw stat is
preserved. -/
theorem adj_multiplier_bounds (r raw : ℚ) (h1 : 1 ≤ r) :
    (r ≤ 30 → 0 < adjMultiplier mlbCohort r ∧ adjMultiplier mlbCohort r < 2)
    ∧ (r ≤ 32 → 0 < adjMultiplier nflCohort r ∧ adjMultiplier nflCohort r < 2)
    ∧ (r ≤ 30 →
        (0 ≤ raw → 0 ≤ raw * adjMultiplier mlbCohort r
          ∧ raw * adjMultiplier mlbCohort r ≤ 2 * raw)
        ∧ (0 < raw → 0 < raw * adjMultiplier mlbCohort r
          ∧ raw * adjMultiplier mlbCohort r < 2 * raw)
        ∧ (raw < 0 → raw * adjMultiplier mlbCohort r < 0))
    ∧ (r ≤ 32 →
        (0 ≤ raw → 0 ≤ raw * adjMultiplier nflCohort r
          ∧ raw * adjMultiplier nflCohort r ≤ 2 * raw)
        ∧ (0 < raw → 0 < raw * adjMultiplier nflCohort r
          ∧ raw * adjMultiplier nflCohort r < 2 * raw)
        ∧ (raw < 0 → raw * adjMultiplier nflCohort r < 0)) := by
  have hCm : (0 : ℚ) < mlbCohort := by norm_num [mlbCohort]
  have hCn : (0 : ℚ) < nflCohort := by norm_num [nflCohort]
  refine ⟨fun hr => adjMultiplier_pos_lt_two mlbCohort r hCm h1 ?_,
    fun hr => adjMultiplier_pos_lt_two nflCohort r hCn h1 ?_,
    fun hr => ?_, fun hr => ?_⟩
  · norm_num [mlbCohort]; linarith
  · norm_num [nflCohort]; linarith
  · obtain ⟨hp, h2⟩ := adjMultiplier_pos_lt_two mlbCohort r hCm h1
      (by norm_num [mlbCohort]; linarith)
    exact mul_mult_bounds _ raw hp h2
  · obtain ⟨hp, h2⟩ := adjMultiplier_pos_lt_two nflCohort r hCn h1
      (by norm_num [nflCohort]; linarith)
    exact mul_mult_bounds _ raw hp h2

/-- Witness for the amended C10 at rank 1 and raw stat 3. -/
theorem adj_multiplier_bounds_witness :
    (1 : ℚ) ≤ 1
    ∧ (((1 : ℚ) ≤ 30 → 0 < adjMultiplier mlbCohort 1 ∧ adjMultiplier mlbCohort 1 < 2)
    ∧ ((1 : ℚ) ≤ 32 → 0 < adjMultiplier nflCohort 1 ∧ adjMultiplier nflCohort 1 < 2)
    ∧ ((1 : ℚ) ≤ 30 →
        ((0 : ℚ) ≤ 3 → 0 ≤ 3 * adjMultiplier mlbCohort 1
          ∧ 3 * adjMultiplier mlbCohort 1 ≤ 2 * 3)
        ∧ ((0 : ℚ) < 3 → 0 < 3 * adjMultiplier mlbCohort 1
          ∧ 3 * adjMultiplier mlbCohort 1 < 2 * 3)
        ∧ ((3 : ℚ) < 0 → 3 * adjMultiplier mlbCohort 1 < 0))
    ∧ ((1 : ℚ) ≤ 32 →
        ((0 : ℚ) ≤ 3 → 0 ≤ 3 * adjMultiplier nflCohort 1
          ∧ 3 * adjMultiplier nflCohort 1 ≤ 2 * 3)
        ∧ ((0 : ℚ) < 3 → 0 < 3 * adjMultiplier nflCohort 1
          ∧ 3 * adjMultiplier nflCohort 1 < 2 * 3)
        ∧ ((3 : ℚ) < 0 → 3 * adjMultiplier nflCohort 1 < 0))) :=
  ⟨by norm_num, adj_multiplier_bounds 1 3 (by norm_num)⟩

/-- C8: for every record whose opponent has no entry in the relevant rank
table (or whose opponent column is itself missing), the adjustment stage
produces a missing adjusted value rather than applying any default
multiplier, and the missingness propagates through the multiplication into
every adjusted stat column of that record, in both pipelines. -/
theorem missing_rank_propagates (rt : List (String × ℚ)) (opp : Option String)
    (b : BatterRow) (tbl : List (String × ℚ × ℚ)) (o2 : String) (ps pa : ℚ)
    (hm : lookupOpponentRank rt opp = none) (hn : tbl.lookup o2 = none) :
    mlbAdjustRecord (lookupOpponentRank rt opp) b = ⟨none, none, none, none⟩
    ∧ nflAdjustRecord (nflOpponentRanks tbl o2).1 (nflOpponentRanks tbl o2).2 ps pa
      = ⟨none, none⟩ := by
  constructor
  · rw [hm]; rfl
  · simp [nflOpponentRanks, hn, nflAdjustRecord, adjustStat]

/-- Witness for C8: a record whose opponent is absent from an explicit rank
table. -/
theorem missing_rank_propagates_witness :
    lookupOpponentRank [("NYM", 3)] (some "BOS") = none
    ∧ [("NYM", (3 : ℚ), (5 : ℚ))].lookup "BOS" = none
    ∧ (mlbAdjustRecord (lookupOpponentRank [("NYM", 3)] (some "BOS"))
        ⟨1, "BOS", 2, 1, 0, 3, 4⟩ = ⟨none, none, none, none⟩
    ∧ nflAdjustRecord (nflOpponentRanks [("NYM", (3 : ℚ), (5 : ℚ))] "BOS").1
        (nflOpponentRanks [("NYM", (3 : ℚ), (5 : ℚ))] "BOS").2 21 17 = ⟨none, none⟩) :=
  ⟨by decide, by decide,
   missing_rank_propagates [("NYM", 3)] (some "BOS") ⟨1, "BOS", 2, 1, 0, 3, 4⟩
     [("NYM", (3 : ℚ), (5 : ℚ))] "BOS" 21 17 (by decide) (by decide)⟩

lemma beats_irrefl (asc : Bool) (v : List ℚ) (i : Nat) : ¬ beats asc v i i := by
  cases asc <;> simp [beats]

lemma beats_trans (asc : Bool) (v : List ℚ) {k j i : Nat}
    (h1 : beats asc v k j) (h2 : beats asc v j i) : beats asc v k i := by
  cases asc <;> simp only [beats, Bool.false_eq_true, ite_true, ite_false,
    if_true, if_false] at h1 h2 ⊢ <;>
  · rcases h1 with h1 | ⟨he1, hl1⟩ <;> rcases h2 with h2 | ⟨he2, hl2⟩ <;>
      first
      | exact Or.inl (by linarith)
      | exact Or.inr ⟨by linarith, by omega⟩

lemma beats_total (asc : Bool) (v : List ℚ) {i j : Nat} (h : i ≠ j) :
    beats asc v i j ∨ beats asc v j i := by
  rcases lt_trichotomy (v.getD i 0) (v.getD j 0) with hv | hv | hv
  · cases asc
    · exact Or.inr (Or.inl (by simpa using hv))
    · exact Or.inl (Or.inl (by simpa using hv))
  · rcases Nat.lt_or_ge i j with hij | hij
    · exact Or.inl (Or.inr ⟨hv, hij⟩)
    · exact Or.inr (Or.inr ⟨hv.symm, lt_of_le_of_ne hij (Ne.symm h)⟩)
  · cases asc
    · exact Or.inl (Or.inl (by simpa using hv))
    · exact Or.inr (Or.inl (by simpa using hv))

lemma rankOf_eq_beatSet (asc : Bool) (v : List ℚ) (i : Nat) :
    rankOf asc v i = 1 + (beatSet asc v i).card := rfl

lemma beatSet_ssubset (asc : Bool) (v : List ℚ) {j i : Nat}
    (hj : j < v.length) (h : beats asc v j i) :
    beatSet asc v j ⊂ beatSet asc v i := by
  constructor
  · intro k hk
    simp only [beatSet, Finset.mem_filter] at hk ⊢
    exact ⟨hk.1, beats_trans asc v hk.2 h⟩
  · intro hsub
    have hji : j ∈ beatSet asc v i := by
      simp only [beatSet, Finset.mem_filter]
      exact ⟨Finset.mem_range.mpr hj, h⟩
    have hjj : j ∈ beatSet asc v j := hsub hji
    simp only [beatSet, Finset.mem_filter] at hjj
    exact beats_irrefl asc v j hjj.2

lemma rankOf_lt_of_beats (asc : Bool) (v : List ℚ) {j i : Nat}
    (hj : j < v.length) (h : beats asc v j i) :
    rankOf asc v j < rankOf asc v i := by
  have := Finset.card_lt_card (beatSet_ssubset asc v hj h)
  simpa [rankOf_eq_beatSet] using this

lemma rankOf_pos (asc : Bool) (v : List ℚ) (i : Nat) : 1 ≤ rankOf asc v i := by
  unfold rankOf
  omega

lemma rankOf_le (asc : Bool) (v : List ℚ) {i : Nat} (hi : i < v.length) :
    rankOf asc v i ≤ v.length := by
  have hsub : beatSet asc v i ⊆ (Finset.range v.length).erase i := by
    intro k hk
    simp only [beatSet, Finset.mem_filter] at hk
    refine Finset.mem_erase.mpr ⟨?_, hk.1⟩
    intro hki
    exact beats_irrefl asc v i (hki ▸ hk.2)
  have h1 := Finset.card_le_card hsub
  have h2 : ((Finset.range v.length).erase i).card = v.length - 1 := by
    rw [Finset.card_erase_of_mem (Finset.mem_range.mpr hi), Finset.card_range]
  rw [rankOf_eq_beatSet]
  omega

lemma rankOf_injOn (asc : Bool) (v : List ℚ) {i j : Nat}
    (hi : i < v.length) (hj : j < v.length)
    (h : rankOf asc v i = rankOf asc v j) : i = j := by
  by_contra hne
  rcases beats_total asc v hne with hb | hb
  · exact absurd h (Nat.ne_of_lt (rankOf_lt_of_beats asc v hi hb))
  · exact absurd h.symm (Nat.ne_of_lt (rankOf_lt_of_beats asc v hj hb))

/-- The rank column is a permutation of 1..N. -/
lemma rankFirst_perm (asc : Bool) (v : List ℚ) :
    (rankFirst asc v).Perm (List.range' 1 v.length) := by
  have hnodup : (rankFirst asc v).Nodup := by
    refine List.Nodup.map_on ?_ (List.nodup_range _)
    intro x hx y hy hxy
    exact rankOf_injOn asc v (List.mem_range.mp hx) (List.mem_range.mp hy) hxy
  have himg : ((Finset.range v.length).image (rankOf asc v)) = Finset.Icc 1 v.length := by
    apply Finset.eq_of_subset_of_card_le
    · intro k hk
      rw [Finset.mem_image] at hk
      obtain ⟨i, hi, rfl⟩ := hk
      rw [Finset.mem_Icc]
      exact ⟨rankOf_pos asc v i, rankOf_le asc v (Finset.mem_range.mp hi)⟩
    · rw [Nat.card_Icc, Finset.card_image_of_injOn, Finset.card_range]
      · omega
      · intro x hx y hy hxy
        exact rankOf_injOn asc v (Finset.mem_range.mp hx) (Finset.mem_range.mp hy) hxy
  apply List.perm_of_nodup_nodup_toFinset_eq hnodup (List.nodup_range' ..)
  have h1 : (rankFirst asc v).toFinset = Finset.Icc 1 v.length := by
    rw [← himg]
    unfold rankFirst
    ext x
    simp
  rw [h1]
  ext x
  simp [List.mem_range'_1, Finset.mem_Icc]
  omega

/-- A tied metric value is ranked by first occurrence: the earlier row gets
the smaller rank number. -/
lemma rankOf_tie_first (asc : Bool) (v : List ℚ) {i j : Nat}
    (hi : i < v.length) (heq : v.getD i 0 = v.getD j 0) (hij : i < j) :
    rankOf asc v i < rankOf asc v j :=
  rankOf_lt_of_beats asc v hi (Or.inr ⟨heq, hij⟩)

/-- A row of rank 1 carries the best metric value for the declared
direction. -/
lemma rankOf_eq_one_best (asc : Bool) (v : List ℚ) {i : Nat}
    (h : rankOf asc v i = 1) (j : Nat) (hj : j < v.length) :
    if asc then v.getD i 0 ≤ v.getD j 0 else v.getD j 0 ≤ v.getD i 0 := by
  have hcard : (beatSet asc v i).card = 0 := by
    have := rankOf_eq_beatSet asc v i
    omega
  have hempty : beatSet asc v i = ∅ := Finset.card_eq_zero.mp hcard
  have hnb : ¬ beats asc v j i := by
    intro hb
    have : j ∈ beatSet asc v i := by
      simp only [beatSet, Finset.mem_filter]
      exact ⟨Finset.mem_range.mpr hj, hb⟩
    simp [hempty] at this
  cases asc <;> simp only [beats, Bool.false_eq_true, ite_true, ite_false,
    if_true, if_false, not_or] at hnb <;> simp only [ite_true, ite_false,
    Bool.false_eq_true] <;> exact le_of_not_lt hnb.1

lemma filter_nonempty_of_mem_groupKeys {κ : Type} [DecidableEq κ] {α : Type}
    (key : α → κ) (l : List α) {t : κ} (ht : t ∈ groupKeys key l) :
    0 < (l.filter (fun r => key r = t)).length := by
  unfold groupKeys at ht
  rw [List.mem_dedup, List.mem_map] at ht
  obtain ⟨r, hr, rfl⟩ := ht
  have : r ∈ l.filter (fun x => key x = key r) := by
    rw [List.mem_filter]
    exact ⟨hr, by simp⟩
  exact List.length_pos.mpr (List.ne_nil_of_mem this)

/-- C3: for every input the four rankings are total (the MLB ratio
denominators carry the 1e-6 guard and are strictly positive whenever the
summed counting stats are nonnegative, so no division by a true zero; the
NFL mean denominators are positive group counts), and each rank column is
exactly a permutation of 1..N over the N teams with aggregate rows, with
no ties, rank 1 going to the best team per the declared direction, and
equal metric values broken by first occurrence in the input sequence. -/
theorem rankings_total_and_permutation {κ : Type} [DecidableEq κ]
    (p : List (κ × ℚ × ℚ)) (b : List (κ × ℚ × ℚ × ℚ)) (gOff gDef : List (κ × ℚ))
    (hp : ∀ r ∈ p, 0 ≤ r.2.2) (hb : ∀ r ∈ b, 0 ≤ r.2.2.2) :
    (pitching_rank p).Perm (List.range' 1 (teamPitchingAgg p).length)
    ∧ (hitting_rank b).Perm (List.range' 1 (teamHittingAgg b).length)
    ∧ (offensive_rank gOff).Perm (List.range' 1 (teamMean gOff).length)
    ∧ (defensive_rank gDef).Perm (List.range' 1 (teamMean gDef).length)
    ∧ (∀ t ∈ teamPitchingAgg p, 0 < t.2.2 + eps)
    ∧ (∀ t ∈ teamHittingAgg b, 0 < t.2.2.2 + eps)
    ∧ (∀ t ∈ groupKeys Prod.fst gOff, 0 < ((gOff.filter (fun r => r.1 = t)).length : ℚ))
    ∧ (∀ t ∈ groupKeys Prod.fst gDef, 0 < ((gDef.filter (fun r => r.1 = t)).length : ℚ))
    ∧ (∀ (asc : Bool) (v : List ℚ) (i j : Nat), i < v.length →
        v.getD i 0 = v.getD j 0 → i < j → rankOf asc v i < rankOf asc v j)
    ∧ (∀ (asc : Bool) (v : List ℚ) (i : Nat), rankOf asc v i = 1 →
        ∀ j, j < v.length →
          if asc then v.getD i 0 ≤ v.getD j 0 else v.getD j 0 ≤ v.getD i 0) := by
  refine ⟨?_, ?_, ?_, ?_, ?_, ?_, ?_, ?_, ?_, ?_⟩
  · have := rankFirst_perm true ((teamPitchingAgg p).map fun q => season_era q.2.1 q.2.2)
    simpa [pitching_rank] using this
  · have := rankFirst_perm false
      ((teamHittingAgg b).map fun h => production_score h.2.1 h.2.2.1 h.2.2.2)
    simpa [hitting_rank] using this
  · have := rankFirst_perm false ((teamMean gOff).map Prod.snd)
    simpa [offensive_rank] using this
  · have := rankFirst_perm true ((teamMean gDef).map Prod.snd)
    simpa [defensive_rank] using this
  · intro t ht
    unfold teamPitchingAgg at ht
    rw [List.mem_map] at ht
    obtain ⟨u, hu, rfl⟩ := ht
    have hsum : 0 ≤ ((p.filter (fun r => r.1 = u)).map (fun r => r.2.2)).sum := by
      apply List.sum_nonneg
      intro x hx
      rw [List.mem_map] at hx
      obtain ⟨r, hr, rfl⟩ := hx
      exact hp r (List.mem_of_mem_filter hr)
    have heps : (0 : ℚ) < eps := by norm_num [eps]
    simp only
    linarith
  · intro t ht
    unfold teamHittingAgg at ht
    rw [List.mem_map] at ht
    obtain ⟨u, hu, rfl⟩ := ht
    have hsum : 0 ≤ ((b.filter (fun r => r.1 = u)).map (fun r => r.2.2.2)).sum := by
      apply List.sum_nonneg
      intro x hx
      rw [List.mem_map] at hx
      obtain ⟨r, hr, rfl⟩ := hx
      exact hb r (List.mem_of_mem_filter hr)
    have heps : (0 : ℚ) < eps := by norm_num [eps]
    simp only
    linarith
  · intro t ht
    exact_mod_cast filter_nonempty_of_mem_groupKeys Prod.fst gOff ht
  · intro t ht
    exact_mod_cast filter_nonempty_of_mem_groupKeys Prod.fst gDef ht
  · intro asc v i j hi heq hij
    exact rankOf_tie_first asc v hi heq hij
  · intro asc v i h1 j hj
    exact rankOf_eq_one_best asc v h1 j hj

/-- Witness for C3 on concrete tables: two MLB teams (one with zero innings
pitched, exercising the epsilon guard), two hitting teams, and NFL team
game rows with a tied points mean. -/
theorem rankings_total_and_permutation_witness :
    ((∀ r ∈ [("A", (4 : ℚ), (0 : ℚ)), ("B", 2, 9)], 0 ≤ r.2.2)
      ∧ (∀ r ∈ [("A", (3 : ℚ), (1 : ℚ), (10 : ℚ)), ("B", 5, 0, 12)], 0 ≤ r.2.2.2))
    ∧ ((pitching_rank [("A", (4 : ℚ), (0 : ℚ)), ("B", 2, 9)]).Perm
        (List.range' 1 (teamPitchingAgg [("A", (4 : ℚ), (0 : ℚ)), ("B", 2, 9)]).length)
    ∧ (hitting_rank [("A", (3 : ℚ), (1 : ℚ), (10 : ℚ)), ("B", 5, 0, 12)]).Perm
        (List.range' 1
          (teamHittingAgg [("A", (3 : ℚ), (1 : ℚ), (10 : ℚ)), ("B", 5, 0, 12)]).length)
    ∧ (offensive_rank [("A", (21 : ℚ)), ("B", 21), ("A", 21)]).Perm
        (List.range' 1 (teamMean [("A", (21 : ℚ)), ("B", 21), ("A", 21)]).length)
    ∧ (defensive_rank [("A", (14 : ℚ)), ("B", 7)]).Perm
        (List.range' 1 (teamMean [("A", (14 : ℚ)), ("B", 7)]).length)
    ∧ (∀ t ∈ teamPitchingAgg [("A", (4 : ℚ), (0 : ℚ)), ("B", 2, 9)], 0 < t.2.2 + eps)
    ∧ (∀ t ∈ teamHittingAgg [("A", (3 : ℚ), (1 : ℚ), (10 : ℚ)), ("B", 5, 0, 12)],
        0 < t.2.2.2 + eps)
    ∧ (∀ t ∈ groupKeys Prod.fst [("A", (21 : ℚ)), ("B", 21), ("A", 21)],
        0 < (([("A", (21 : ℚ)), ("B", 21), ("A", 21)].filter
          (fun r => r.1 = t)).length : ℚ))
    ∧ (∀ t ∈ groupKeys Prod.fst [("A", (14 : ℚ)), ("B", 7)],
        0 < (([("A", (14 : ℚ)), ("B", 7)].filter (fun r => r.1 = t)).length : ℚ))
    ∧ (∀ (asc : Bool) (v : List ℚ) (i j : Nat), i < v.length →
        v.getD i 0 = v.getD j 0 → i < j → rankOf asc v i < rankOf asc v j)
    ∧ (∀ (asc : Bool) (v : List ℚ) (i : Nat), rankOf asc v i = 1 →
        ∀ j, j < v.length →
          if asc then v.getD i 0 ≤ v.getD j 0 else v.getD j 0 ≤ v.getD i 0)) :=
  ⟨⟨by norm_num, by norm_num⟩,
   rankings_total_and_permutation
     [("A", (4 : ℚ), (0 : ℚ)), ("B", 2, 9)]
     [("A", (3 : ℚ), (1 : ℚ), (10 : ℚ)), ("B", 5, 0, 12)]
     [("A", (21 : ℚ)), ("B", 21), ("A", 21)]
     [("A", (14 : ℚ)), ("B", 7)]
     (by norm_num) (by norm_num)⟩

lemma lookupFirst_keyed_map {κ α : Type} [DecidableEq κ] (keys : List κ) (f : κ → α)
    {t : κ} (ht : t ∈ keys) :
    lookupFirst (keys.map fun s => (s, f s)) t = some (f t) := by
  induction keys with
  | nil => cases ht
  | cons k ks ih =>
    by_cases hk : k = t
    · subst hk
      unfold lookupFirst
      rw [List.map_cons, List.find?_cons_of_pos _ (by simp)]
      rfl
    · rw [List.mem_cons] at ht
      rcases ht with rfl | ht
      · exact absurd rfl hk
      · unfold lookupFirst
        rw [List.map_cons, List.find?_cons_of_neg _ (by simp [hk])]
        exact ih ht

lemma lookupFirst_keyed_map_not_mem {κ α : Type} [DecidableEq κ] (keys : List κ)
    (f : κ → α) {t : κ} (ht : t ∉ keys) :
    lookupFirst (keys.map fun s => (s, f s)) t = none := by
  induction keys with
  | nil => rfl
  | cons k ks ih =>
    have hk : k ≠ t := fun h => ht (h ▸ List.mem_cons_self k ks)
    have ht' : t ∉ ks := fun h => ht (List.mem_cons_of_mem k h)
    unfold lookupFirst
    rw [List.map_cons, List.find?_cons_of_neg _ (by simp [hk])]
    exact ih ht'

lemma teamSeries_eq_nil_of_not_mem {κ : Type} [DecidableEq κ]
    (rows : List (κ × Option ℚ)) {t : κ} (ht : t ∉ rows.map Prod.fst) :
    teamSeries rows t = [] := by
  unfold teamSeries
  have : rows.filter (fun r => r.1 = t) = [] := by
    rw [List.filter_eq_nil_iff]
    intro r hr
    simp only [decide_eq_true_eq]
    intro he
    exact ht (List.mem_map.mpr ⟨r, hr, he⟩)
  rw [this, List.map_nil]

lemma filterMap_id_ne_nil_of_head_some (y : Option ℚ) (t : List (Option ℚ))
    (hy : y.isSome) : ∃ z zs, (y :: t).filterMap id = z :: zs := by
  obtain ⟨w, hw⟩ := Option.isSome_iff_exists.mp hy
  subst hw
  exact ⟨w, t.filterMap id, by simp⟩

lemma getLast?_filterMap_of_all_some (s : List (Option ℚ))
    (h : ∀ x ∈ s, x.isSome) : (s.filterMap id).getLast? = s.getLast?.join := by
  induction s with
  | nil => rfl
  | cons x rest ih =>
    have hrest : ∀ y ∈ rest, y.isSome := fun y hy => h y (List.mem_cons_of_mem x hy)
    obtain ⟨v, hv⟩ := Option.isSome_iff_exists.mp (h x (List.mem_cons_self x rest))
    subst hv
    cases rest with
    | nil => rfl
    | cons y t =>
      have hfm : (some v :: y :: t).filterMap id = v :: (y :: t).filterMap id := by simp
      have hlast : (some v :: y :: t).getLast? = (y :: t).getLast? :=
        List.getLast?_cons_cons
      obtain ⟨z, zs, hzz⟩ := filterMap_id_ne_nil_of_head_some y t
        (hrest y (List.mem_cons_self y t))
      rw [hfm, hlast, ← ih hrest, hzz, List.getLast?_cons_cons]

lemma getLast?_filterMap_of_tail_some (s : List (Option ℚ))
    (h : ∀ x ∈ s.tail, x.isSome) : (s.filterMap id).getLast? = s.getLast?.join := by
  cases s with
  | nil => rfl
  | cons x rest =>
    simp only [List.tail_cons] at h
    cases rest with
    | nil =>
      cases x with
      | none => rfl
      | some v => rfl
    | cons y t =>
      have hall := getLast?_filterMap_of_all_some (y :: t) h
      have hlast : (x :: y :: t).getLast? = (y :: t).getLast? := List.getLast?_cons_cons
      obtain ⟨z, zs, hzz⟩ := filterMap_id_ne_nil_of_head_some y t
        (h y (List.mem_cons_self y t))
      cases x with
      | none =>
        have hfm : (none :: y :: t).filterMap id = (y :: t).filterMap id := by simp
        rw [hfm, hlast, hall]
      | some v =>
        have hfm : (some v :: y :: t).filterMap id = v :: (y :: t).filterMap id := by simp
        rw [hfm, hlast, ← hall, hzz, List.getLast?_cons_cons]

lemma snapshot_side_value {κ : Type} [DecidableEq κ] (rows : List (κ × Option ℚ))
    (t : κ) (hs : ∀ u ∈ rows.map Prod.fst, ∀ x ∈ (teamSeries rows u).tail, x.isSome) :
    (lookupFirst (latestPerTeam rows) t).join = (teamSeries rows t).getLast?.join := by
  by_cases ht : t ∈ rows.map Prod.fst
  · have htk : t ∈ groupKeys Prod.fst rows := by
      unfold groupKeys
      exact List.mem_dedup.mpr ht
    unfold latestPerTeam
    rw [lookupFirst_keyed_map _ _ htk]
    have hj : (some (((teamSeries rows t).filterMap id).getLast?)).join
        = ((teamSeries rows t).filterMap id).getLast? := rfl
    rw [hj]
    exact getLast?_filterMap_of_tail_some _ (hs t ht)
  · have htk : t ∉ groupKeys Prod.fst rows := by
      unfold groupKeys
      exact fun hc => ht (List.mem_dedup.mp hc)
    unfold latestPerTeam
    rw [lookupFirst_keyed_map_not_mem _ _ htk]
    rw [teamSeries_eq_nil_of_not_mem rows ht]
    rfl

/-- C4: the set of team codes in the snapshot assembler's output equals the
union of the team codes of the home series and of the away series; every
such team's row carries, per side, the last entry (in timestamp order) of
that team's series for that location, and a team absent from one side
carries a missing value (not zero) on that side.  The side hypotheses
record that a missing rolling value only ever occurs at the start of a
team's series, which holds of every series the rolling engine produces. -/
theorem snapshot_join_is_full_outer_union {κ : Type} [DecidableEq κ]
    (h a : List (κ × Option ℚ))
    (hh : ∀ u ∈ h.map Prod.fst, ∀ x ∈ (teamSeries h u).tail, x.isSome)
    (ha : ∀ u ∈ a.map Prod.fst, ∀ x ∈ (teamSeries a u).tail, x.isSome) :
    ((snapshotJoin h a).map Prod.fst).toFinset
      = (h.map Prod.fst).toFinset ∪ (a.map Prod.fst).toFinset
    ∧ (∀ t ∈ (h.map Prod.fst).toFinset ∪ (a.map Prod.fst).toFinset,
        lookupFirst (snapshotJoin h a) t
          = some ((teamSeries h t).getLast?.join, (teamSeries a t).getLast?.join))
    ∧ (∀ t ∈ (h.map Prod.fst).toFinset, t ∉ (a.map Prod.fst).toFinset →
        lookupFirst (snapshotJoin h a) t
          = some ((teamSeries h t).getLast?.join, none)) := by
  have hkeys : (snapshotJoin h a).map Prod.fst
      = ((h.map Prod.fst) ++ (a.map Prod.fst)).dedup := by
    unfold snapshotJoin
    rw [List.map_map]
    exact List.map_id _
  have hmem : ∀ t, t ∈ ((h.map Prod.fst) ++ (a.map Prod.fst)).dedup ↔
      t ∈ (h.map Prod.fst).toFinset ∪ (a.map Prod.fst).toFinset := by
    intro t
    rw [List.mem_dedup, List.mem_append, Finset.mem_union, List.mem_toFinset,
      List.mem_toFinset]
  refine ⟨?_, ?_, ?_⟩
  · rw [hkeys]
    ext t
    rw [List.mem_toFinset]
    exact hmem t
  · intro t ht
    unfold snapshotJoin
    rw [lookupFirst_keyed_map _ _ ((hmem t).mpr ht)]
    rw [snapshot_side_value h t hh, snapshot_side_value a t ha]
  · intro t hth hta
    unfold snapshotJoin
    rw [lookupFirst_keyed_map _ _ ((hmem t).mpr (Finset.mem_union_left _ hth))]
    rw [snapshot_side_value h t hh, snapshot_side_value a t ha]
    rw [teamSeries_eq_nil_of_not_mem a (fun hc => hta (List.mem_toFinset.mpr hc))]
    rfl

/-- Witness for C4: team A has two home rows (missing rolling value first)
and no away rows; team B has one away row. -/
theorem snapshot_join_is_full_outer_union_witness :
    ((∀ u ∈ c4Home.map Prod.fst, ∀ x ∈ (teamSeries c4Home u).tail, x.isSome)
      ∧ (∀ u ∈ c4Away.map Prod.fst, ∀ x ∈ (teamSeries c4Away u).tail, x.isSome))
    ∧ (((snapshotJoin c4Home c4Away).map Prod.fst).toFinset
        = (c4Home.map Prod.fst).toFinset ∪ (c4Away.map Prod.fst).toFinset
    ∧ (∀ t ∈ (c4Home.map Prod.fst).toFinset ∪ (c4Away.map Prod.fst).toFinset,
        lookupFirst (snapshotJoin c4Home c4Away) t
          = some ((teamSeries c4Home t).getLast?.join, (teamSeries c4Away t).getLast?.join))
    ∧ (∀ t ∈ (c4Home.map Prod.fst).toFinset, t ∉ (c4Away.map Prod.fst).toFinset →
        lookupFirst (snapshotJoin c4Home c4Away) t
          = some ((teamSeries c4Home t).getLast?.join, none))) :=
  ⟨⟨by decide, by decide⟩,
   snapshot_join_is_full_outer_union c4Home c4Away (by decide) (by decide)⟩

/-- C5 counterexample: the MLB pipeline applies no completeness filter: a
game with both final scores missing still produces a per-game aggregate
row from its batter stats, so not every output row traces to a game with
both scores present. -/
theorem mlb_incomplete_game_still_contributes :
    c5Game.home_score = none ∧ c5Game.away_score = none
    ∧ mlbBatterAgg [c5Game] [] [c5Batter]
        = [⟨1, Sum.inl "ATL", "ATL", "NYM", 3, 0⟩] := by
  decide

/-- C5 (amended): the NFL pipeline drops games missing either score before
any feature computation, so every team_game_stats row traces to a game
with both scores present; the MLB pipeline applies no such filter: its
aggregation never reads the score columns, so erasing every score leaves
its output unchanged and incomplete games' batter stats still contribute. -/
theorem score_completeness_per_pipeline (games mg : List Game)
    (prows : List PitcherRow) (brows : List BatterRow) :
    (∀ r ∈ nflTeamGameStats games, ∃ g ∈ games, g.game_id = r.game_id
      ∧ g.home_score.isSome ∧ g.away_score.isSome)
    ∧ mlbBatterAgg (mg.map fun g =>
        { g with home_score := none, away_score := none }) prows brows
      = mlbBatterAgg mg prows brows := by
  constructor
  · intro r hr
    unfold nflTeamGameStats sortByTime at hr
    rw [List.mem_insertionSort, List.mem_append] at hr
    have key : ∀ g', g' ∈ nflCleanGames games →
        ∃ g ∈ games, g.game_id = g'.game_id ∧ g.home_score.isSome ∧ g.away_score.isSome := by
      intro g' hg'
      unfold nflCleanGames sortByTime at hg'
      rw [List.mem_map] at hg'
      obtain ⟨g0, hg0, hg0e⟩ := hg'
      rw [List.mem_insertionSort] at hg0
      unfold nflDropIncomplete at hg0
      rw [List.mem_filter] at hg0
      obtain ⟨hg0mem, hg0p⟩ := hg0
      rw [Bool.and_eq_true] at hg0p
      refine ⟨g0, hg0mem, ?_, hg0p.1, hg0p.2⟩
      rw [← hg0e]
    rcases hr with hr | hr <;>
    · rw [List.mem_map] at hr
      obtain ⟨g', hg', hge⟩ := hr
      obtain ⟨g, hg, hid, hs1, hs2⟩ := key g' hg'
      refine ⟨g, hg, ?_, hs1, hs2⟩
      rw [hid, ← hge]
      rfl
  · have h : mlbCleanGames (mg.map fun g =>
        { g with home_score := none, away_score := none }) = mlbCleanGames mg := by
      unfold mlbCleanGames
      rw [List.map_map]
      rfl
    unfold mlbBatterAgg
    rw [h]

/-- C6: the claim (and the spec) require rows with unresolvable team names
to be dropped before aggregation and never coerced into a shared bucket;
the code instead lets the blanket fillna(0) of line 53 rewrite the NaN
team of every unresolved row to the scalar 0, and the line-81 groupby then
aggregates two rows with two different unresolved names into one combined
bucket row keyed by 0. -/
theorem unresolved_names_aggregate_into_shared_bucket :
    cleanMlbStatsTeam "Gotham Knights" = Sum.inr 0
    ∧ cleanMlbStatsTeam "Metropolis Meteors" = Sum.inr 0
    ∧ "Gotham Knights" ≠ "Metropolis Meteors"
    ∧ mlbBatterAgg [c6Game] [] [c6Batter1, c6Batter2]
        = [⟨1, Sum.inr 0, "ATL", "NYM", 3, 0⟩] := by
  decide

/- ### Location tags (C7) -/

lemma mlbBatterAgg_home_team_consistent (games : List Game) (prows : List PitcherRow)
    (brows : List BatterRow) (hids : (games.map Game.game_id).Nodup) :
    ∀ r ∈ mlbBatterAgg games prows brows, ∀ g ∈ games, g.game_id = r.game_id →
      cleanGameTeam g.home_team = some r.home_team := by
  intro r hr g hg hid
  unfold mlbBatterAgg at hr
  rw [List.mem_map] at hr
  obtain ⟨k, hk, hrk⟩ := hr
  unfold groupKeys at hk
  rw [List.mem_dedup, List.mem_map] at hk
  obtain ⟨e, he, hek⟩ := hk
  rw [List.mem_filterMap] at he
  obtain ⟨r0, _hr0, he0⟩ := he
  rw [Option.map_eq_some'] at he0
  obtain ⟨k0, hk0, hek0⟩ := he0
  unfold mlbAggKey at hk0
  rw [Option.bind_eq_some] at hk0
  obtain ⟨g', hg', hrest⟩ := hk0
  rw [Option.bind_eq_some] at hrest
  obtain ⟨hname, hh, hrest2⟩ := hrest
  rw [Option.map_eq_some'] at hrest2
  obtain ⟨aname, _ha, hk0eq⟩ := hrest2
  have hg'mem : g' ∈ mlbCleanGames games := List.mem_of_find?_eq_some hg'
  have hg'id : g'.game_id = r0.game_id := by
    have := List.find?_some hg'
    simpa using this
  have hg'orig : ∃ g0 ∈ games, mlbCleanGame g0 = g' := by
    unfold mlbCleanGames sortByTime at hg'mem
    rw [List.mem_insertionSort, List.mem_map] at hg'mem
    obtain ⟨g0, hg0, hg0e⟩ := hg'mem
    exact ⟨g0, hg0, hg0e⟩
  obtain ⟨g0, hg0mem, hg0e⟩ := hg'orig
  have hg0id : g0.game_id = g'.game_id := by rw [← hg0e]; rfl
  have hrid : r.game_id = k.1 := by rw [← hrk]
  have hk1 : k.1 = r0.game_id := by
    rw [← hek, ← hek0, ← hk0eq]
  have hgg0 : g = g0 := by
    apply List.inj_on_of_nodup_map hids hg hg0mem
    rw [hg0id, hg'id, ← hk1, ← hrid, hid]
  have hrhome : r.home_team = k.2.2.1 := by rw [← hrk]
  have hkh : k.2.2.1 = hname := by rw [← hek, ← hek0, ← hk0eq]
  have : cleanGameTeam g0.home_team = g'.home_team := by rw [← hg0e]; rfl
  rw [hgg0, this, hh, hrhome, hkh]

lemma nflCleanGames_ids_nodup (games : List Game)
    (hids : (games.map Game.game_id).Nodup) :
    ((nflCleanGames games).map Game.game_id).Nodup := by
  unfold nflCleanGames sortByTime
  rw [List.map_map]
  have h1 : (Game.game_id ∘ fun g =>
      { g with home_team := nflResolveName g.home_team,
               away_team := nflResolveName g.away_team }) = Game.game_id := rfl
  rw [h1]
  have hperm : (List.insertionSort
      (fun x y => x.commence_time ≤ y.commence_time) (nflDropIncomplete games)).Perm
      (nflDropIncomplete games) := List.perm_insertionSort _ _
  refine (hperm.map Game.game_id).nodup_iff.mpr ?_
  unfold nflDropIncomplete
  exact hids.sublist ((List.filter_sublist games).map Game.game_id)

/-- C7: in both pipelines, a per-game team aggregate row is tagged Home
exactly when its team code equals the home team code of the game the row
belongs to, and Away otherwise, for every row of the partitioned tables
fed to the rolling engine (game identifiers assumed unique, the data
model's invariant). -/
theorem location_tag_iff_team_is_home (games : List Game) (prows : List PitcherRow)
    (brows : List BatterRow) (ngames : List Game)
    (hids : (games.map Game.game_id).Nodup)
    (hnids : (ngames.map Game.game_id).Nodup) :
    (∀ r ∈ mlbHomeAgg games prows brows, r.team = Sum.inl r.home_team
      ∧ ∀ g ∈ games, g.game_id = r.game_id →
          cleanGameTeam g.home_team = some r.home_team)
    ∧ (∀ r ∈ mlbAwayAgg games prows brows, r.team ≠ Sum.inl r.home_team
      ∧ ∀ g ∈ games, g.game_id = r.game_id →
          cleanGameTeam g.home_team = some r.home_team)
    ∧ (∀ r ∈ nflHomeStats ngames, ∀ g ∈ nflCleanGames ngames,
        g.game_id = r.game_id → r.team = g.home_team)
    ∧ (∀ r ∈ nflAwayStats ngames, ∀ g ∈ nflCleanGames ngames,
        g.game_id = r.game_id → r.team ≠ g.home_team) := by
  have hnodupc := nflCleanGames_ids_nodup ngames hnids
  refine ⟨?_, ?_, ?_, ?_⟩
  · intro r hr
    unfold mlbHomeAgg at hr
    rw [List.mem_filter] at hr
    obtain ⟨hmem, htag⟩ := hr
    unfold mlbIsHome at htag
    rw [decide_eq_true_eq] at htag
    exact ⟨htag, mlbBatterAgg_home_team_consistent games prows brows hids r hmem⟩
  · intro r hr
    unfold mlbAwayAgg at hr
    rw [List.mem_filter] at hr
    obtain ⟨hmem, htag⟩ := hr
    rw [Bool.not_eq_eq_eq_not, Bool.not_true] at htag
    unfold mlbIsHome at htag
    rw [decide_eq_false_iff_not] at htag
    exact ⟨htag, mlbBatterAgg_home_team_consistent games prows brows hids r hmem⟩
  · intro r hr g hg hgid
    unfold nflHomeStats at hr
    rw [List.mem_filter] at hr
    obtain ⟨_hmem, htag⟩ := hr
    unfold nflIsHome at htag
    rcases hfind : (nflCleanGames ngames).find? (fun g2 => g2.game_id == r.game_id) with
      _ | g1
    · rw [hfind] at htag
      cases htag
    · rw [hfind] at htag
      have hg1mem : g1 ∈ nflCleanGames ngames := List.mem_of_find?_eq_some hfind
      have hg1id : g1.game_id = r.game_id := by
        have := List.find?_some hfind
        simpa using this
      have hgg1 : g = g1 :=
        List.inj_on_of_nodup_map hnodupc hg hg1mem (by rw [hg1id, hgid])
      rw [hgg1]
      exact eq_of_beq htag
  · intro r hr g hg hgid
    unfold nflAwayStats at hr
    rw [List.mem_filter] at hr
    obtain ⟨_hmem, htag⟩ := hr
    rw [Bool.not_eq_eq_eq_not, Bool.not_true] at htag
    unfold nflIsHome at htag
    rcases hfind : (nflCleanGames ngames).find? (fun g2 => g2.game_id == r.game_id) with
      _ | g1
    · exfalso
      have : g ∈ nflCleanGames ngames ∧ (g.game_id == r.game_id) = true :=
        ⟨hg, by simp [hgid]⟩
      have hsome : ((nflCleanGames ngames).find? (fun g2 => g2.game_id == r.game_id)).isSome := by
        rw [List.find?_isSome]
        exact ⟨g, this.1, this.2⟩
      rw [hfind] at hsome
      cases hsome
    · rw [hfind] at htag
      have hg1mem : g1 ∈ nflCleanGames ngames := List.mem_of_find?_eq_some hfind
      have hg1id : g1.game_id = r.game_id := by
        have := List.find?_some hfind
        simpa using this
      have hgg1 : g = g1 :=
        List.inj_on_of_nodup_map hnodupc hg hg1mem (by rw [hg1id, hgid])
      rw [hgg1]
      intro hc
      rw [hc] at htag
      simp at htag

/-- Witness for C7 on one complete MLB game with one home-team and one
away-team batter row, and one complete NFL game. -/
theorem location_tag_iff_team_is_home_witness :
    (([c6Game].map Game.game_id).Nodup
      ∧ (([(⟨7, "KC", "SEA", some 20, some 13, 4⟩ : Game)]).map Game.game_id).Nodup)
    ∧ ((∀ r ∈ mlbHomeAgg [c6Game] [] [c5Batter, ⟨1, "Mets", 2, 0, 1, 1, 3⟩],
        r.team = Sum.inl r.home_team
        ∧ ∀ g ∈ [c6Game], g.game_id = r.game_id →
            cleanGameTeam g.home_team = some r.home_team)
    ∧ (∀ r ∈ mlbAwayAgg [c6Game] [] [c5Batter, ⟨1, "Mets", 2, 0, 1, 1, 3⟩],
        r.team ≠ Sum.inl r.home_team
        ∧ ∀ g ∈ [c6Game], g.game_id = r.game_id →
            cleanGameTeam g.home_team = some r.home_team)
    ∧ (∀ r ∈ nflHomeStats [(⟨7, "KC", "SEA", some 20, some 13, 4⟩ : Game)],
        ∀ g ∈ nflCleanGames [(⟨7, "KC", "SEA", some 20, some 13, 4⟩ : Game)],
        g.game_id = r.game_id → r.team = g.home_team)
    ∧ (∀ r ∈ nflAwayStats [(⟨7, "KC", "SEA", some 20, some 13, 4⟩ : Game)],
        ∀ g ∈ nflCleanGames [(⟨7, "KC", "SEA", some 20, some 13, 4⟩ : Game)],
        g.game_id = r.game_id → r.team ≠ g.home_team)) :=
  ⟨⟨by decide, by decide⟩,
   location_tag_iff_team_is_home [c6Game] [] [c5Batter, ⟨1, "Mets", 2, 0, 1, 1, 3⟩]
     [(⟨7, "KC", "SEA", some 20, some 13, 4⟩ : Game)] (by decide) (by decide)⟩

lemma sortByTime_eq_of_perm_of_nodup_times {α : Type} (time : α → Nat)
    {l1 l2 : List α} (hp : l1.Perm l2) (hn : (l1.map time).Nodup) :
    sortByTime time l1 = sortByTime time l2 := by
  haveI htot : IsTotal α (fun a b => time a ≤ time b) :=
    ⟨fun a b => Nat.le_total (time a) (time b)⟩
  haveI htr : IsTrans α (fun a b => time a ≤ time b) :=
    ⟨fun a b c h1 h2 => Nat.le_trans h1 h2⟩
  haveI hanti : IsAntisymm α (fun a b => time a < time b) :=
    ⟨fun a b h1 h2 => absurd (Nat.lt_trans h1 h2) (Nat.lt_irrefl _)⟩
  unfold sortByTime
  have hperm : (List.insertionSort (fun a b => time a ≤ time b) l1).Perm
      (List.insertionSort (fun a b => time a ≤ time b) l2) :=
    (List.perm_insertionSort _ l1).trans (hp.trans (List.perm_insertionSort _ l2).symm)
  have hstrict : ∀ l : List α, (l.map time).Nodup →
      List.Sorted (fun a b => time a ≤ time b) l →
      List.Sorted (fun a b => time a < time b) l := by
    intro l hln hs
    have hne : l.Pairwise (fun a b => time a ≠ time b) := by
      rw [List.Nodup, List.pairwise_map] at hln
      exact hln
    exact (hs.and hne).imp (fun hab => Nat.lt_of_le_of_ne hab.1 hab.2)
  have hn1 : ((List.insertionSort (fun a b => time a ≤ time b) l1).map time).Nodup :=
    (((List.perm_insertionSort _ l1).map time).nodup_iff).mpr hn
  have hn2' : (l2.map time).Nodup := ((hp.map time).nodup_iff).mp hn
  have hn2 : ((List.insertionSort (fun a b => time a ≤ time b) l2).map time).Nodup :=
    (((List.perm_insertionSort _ l2).map time).nodup_iff).mpr hn2'
  exact @List.eq_of_perm_of_sorted α (fun a b => time a < time b) hanti _ _ hperm
    (hstrict _ hn1 (List.sorted_insertionSort _ l1))
    (hstrict _ hn2 (List.sorted_insertionSort _ l2))

/-- C9 (amended): the snapshot stage is a pure function, so two runs over
identical input tables produce identical output; and its output is
identical across any two runs whose input tables hold the same rows in
different orders provided game timestamps are pairwise distinct, because
the timestamp sort then admits one sorted order.  (With tied timestamps
the "last" selection follows input order; see the counterexample.) -/
theorem snapshot_deterministic_and_order_independent (rows1 rows2 : List MlbAggRow)
    (hperm : rows1.Perm rows2)
    (htimes : (rows1.map MlbAggRow.commence_time).Nodup) :
    mlbAssembleLatest rows1 = mlbAssembleLatest rows1
    ∧ mlbAssembleLatest rows1 = mlbAssembleLatest rows2 := by
  refine ⟨rfl, ?_⟩
  unfold mlbAssembleLatest
  rw [sortByTime_eq_of_perm_of_nodup_times MlbAggRow.commence_time hperm htimes]

/-- C9 counterexample: two inputs holding the same rows in different orders
(two home games of one team sharing a timestamp) produce different
snapshots — the "last" selection is not driven by the timestamp sort alone
when timestamps tie, so order-independence fails as claimed. -/
theorem snapshot_depends_on_tied_time_order :
    ([c9RowA, c9RowB].Perm [c9RowB, c9RowA])
    ∧ mlbAssembleLatest [c9RowA, c9RowB] ≠ mlbAssembleLatest [c9RowB, c9RowA] := by
  constructor
  · exact List.Perm.swap c9RowB c9RowA []
  · have h1 : mlbAssembleLatest [c9RowA, c9RowB]
        = [(Sum.inl "ATL", (some 1, none))] := by
      norm_num [mlbAssembleLatest, sortByTime, List.insertionSort, List.orderedInsert,
        c9RowA, c9RowB, mlbIsHome, rollPerTeam, groupKeys, rollingShiftMean,
        rollingMeanMinp1, shift1, List.range_succ, List.filterMap_cons, id_eq,
        snapshotJoin, latestPerTeam, teamSeries, lookupFirst, mlbRollingWindow,
        List.findSome?_cons]
      simp
    have h2 : mlbAssembleLatest [c9RowB, c9RowA]
        = [(Sum.inl "ATL", (some 2, none))] := by
      norm_num [mlbAssembleLatest, sortByTime, List.insertionSort, List.orderedInsert,
        c9RowA, c9RowB, mlbIsHome, rollPerTeam, groupKeys, rollingShiftMean,
        rollingMeanMinp1, shift1, List.range_succ, List.filterMap_cons, id_eq,
        snapshotJoin, latestPerTeam, teamSeries, lookupFirst, mlbRollingWindow,
        List.findSome?_cons]
      simp
    rw [h1, h2]
    simp

/-- Witness for the amended C9: two rows with distinct timestamps, in two
orders. -/
theorem snapshot_deterministic_and_order_independent_witness :
    (([⟨1, Sum.inl "ATL", "ATL", "NYM", 5, 1⟩,
        (⟨2, Sum.inl "ATL", "ATL", "BOS", 6, 2⟩ : MlbAggRow)].Perm
      [⟨2, Sum.inl "ATL", "ATL", "BOS", 6, 2⟩,
        (⟨1, Sum.inl "ATL", "ATL", "NYM", 5, 1⟩ : MlbAggRow)])
      ∧ (([⟨1, Sum.inl "ATL", "ATL", "NYM", 5, 1⟩,
          (⟨2, Sum.inl "ATL", "ATL", "BOS", 6, 2⟩ : MlbAggRow)]).map
            MlbAggRow.commence_time).Nodup)
    ∧ (mlbAssembleLatest [⟨1, Sum.inl "ATL", "ATL", "NYM", 5, 1⟩,
          (⟨2, Sum.inl "ATL", "ATL", "BOS", 6, 2⟩ : MlbAggRow)]
        = mlbAssembleLatest [⟨1, Sum.inl "ATL", "ATL", "NYM", 5, 1⟩,
          (⟨2, Sum.inl "ATL", "ATL", "BOS", 6, 2⟩ : MlbAggRow)]
    ∧ mlbAssembleLatest [⟨1, Sum.inl "ATL", "ATL", "NYM", 5, 1⟩,
          (⟨2, Sum.inl "ATL", "ATL", "BOS", 6, 2⟩ : MlbAggRow)]
        = mlbAssembleLatest [⟨2, Sum.inl "ATL", "ATL", "BOS", 6, 2⟩,
          (⟨1, Sum.inl "ATL", "ATL", "NYM", 5, 1⟩ : MlbAggRow)]) :=
  ⟨⟨List.Perm.swap _ _ [], by decide⟩,
   snapshot_deterministic_and_order_independent _ _ (List.Perm.swap _ _ []) (by decide)⟩

end Ingestion
